import Mathlib

/-!
Verification of the multicast latency-benchmark receivers.

Shallow embedding of the two receiver programs:
* `src/benchmarks/kernel_receiver.c` — blocking socket path
  (`process_order_book`, the `main` receive loop with periodic and final
  statistics reports);
* `src/dpdk_example/udp_multicast_receiver.c` — polled-burst path
  (`lcore_main` per-frame processing, `print_stats`, `main`).

Machine integers are modelled as `Nat` with explicit reduction modulo
`2^64` (resp. `2^16`) wherever C unsigned arithmetic wraps.  Fallible
C operations (division whose divisor may be zero is undefined behaviour)
return `Option`.
-/

namespace Spec2Proof

/-- The modulus of 64-bit unsigned arithmetic. -/
def U64 : Nat := 2 ^ 64

/-- The modulus of 16-bit unsigned arithmetic. -/
def U16 : Nat := 2 ^ 16

/-- Reduce a value into the 64-bit range, as storing into a `uint64_t` does. -/
def wrap64 (a : Nat) : Nat := a % U64

/-- Unsigned 64-bit addition (wraps modulo `2^64`). -/
def add64 (a b : Nat) : Nat := (a + b) % U64

/-- Unsigned 64-bit subtraction `a - b` (wraps modulo `2^64` on underflow). -/
def sub64 (a b : Nat) : Nat := (a % U64 + U64 - b % U64) % U64

/-- Unsigned 16-bit subtraction `a - b` truncated to `uint16_t`, as in the
`payload_len` computation of the burst path. -/
def sub16 (a b : Nat) : Nat := (a % U16 + U16 - b % U16) % U16

/-- C unsigned 64-bit division; a zero divisor is undefined behaviour,
modelled as `none`. -/
def u64div (a b : Nat) : Option Nat := if b = 0 then none else some (a / b)

/-- The statistics structure `struct stats` of `kernel_receiver.c`:
packets, bytes, total latency, min latency, max latency (all `uint64_t`). -/
structure Stats where
  packets_received : Nat
  bytes_received : Nat
  total_latency_ns : Nat
  min_latency_ns : Nat
  max_latency_ns : Nat
deriving DecidableEq, Repr

/-- The zero-initialised accumulator declared at the top of `main`. -/
def initStats : Stats := ⟨0, 0, 0, 0, 0⟩

/-- The timestamp-extraction loop of `process_order_book`:
`send_time_ns = (send_time_ns << 8) | data[i]` over `i = 0..7`, in
`uint64_t` arithmetic, reading the first 8 payload bytes (big-endian).
Bytes are `uint8_t`, modelled by reducing each byte modulo 256. -/
def extractSendTime (data : List Nat) : Nat :=
  (List.range 8).foldl (fun acc i => wrap64 (acc <<< 8) ||| (data.getD i 0 % 256)) 0

/-- Embedding of `process_order_book` of `kernel_receiver.c` (lines 47-74): messages
shorter than 32 bytes are discarded; otherwise the first 8 bytes are read
as a big-endian send timestamp, latency is `recv_time - send_time` in
`uint64_t`, and the statistics are updated.  The min check compares the
post-increment packet count with 1; max relies on the zero initial value. -/
def process_order_book (data : List Nat) (recv_time_ns : Nat) (stats : Stats) : Stats :=
  if data.length < 32 then
    stats
  else
    let send_time_ns := extractSendTime data
    let latency_ns := sub64 recv_time_ns send_time_ns
    let packets := add64 stats.packets_received 1
    let bytes := add64 stats.bytes_received data.length
    let total := add64 stats.total_latency_ns latency_ns
    let minL := if packets = 1 ∨ latency_ns < stats.min_latency_ns then latency_ns
                else stats.min_latency_ns
    let maxL := if latency_ns > stats.max_latency_ns then latency_ns
                else stats.max_latency_ns
    ⟨packets, bytes, total, minL, maxL⟩

/-! ## The polled-burst path (`udp_multicast_receiver.c`) -/

/-- The statistics structure `struct rx_stats` of `udp_multicast_receiver.c`:
packets, bytes, errors, total latency in TSC cycles (all `uint64_t`). -/
structure RxStats where
  packets : Nat
  bytes : Nat
  errors : Nat
  total_latency_cycles : Nat
deriving DecidableEq, Repr

/-- The zero-initialised burst-path statistics. -/
def initRxStats : RxStats := ⟨0, 0, 0, 0⟩

/-- Read a 16-bit big-endian field from two bytes (as the wire format of
`ether_type` and `dgram_len` stores it). -/
def be16 (hi lo : Nat) : Nat := (hi % 256) * 256 + lo % 256

/-- The EtherType field of a raw frame: big-endian 16-bit at offset 12 of
the Ethernet header (`eth_hdr->ether_type`, compared against
`rte_cpu_to_be_16(RTE_ETHER_TYPE_IPV4)`, i.e. against IPv4 = `0x0800`). -/
def frame_ether_type (fr : List Nat) : Nat := be16 (fr.getD 12 0) (fr.getD 13 0)

/-- The IPv4 protocol field of a raw frame: `ip_hdr->next_proto_id`, one byte
at offset 14 + 9 = 23 (Ethernet header 14 bytes, protocol at IPv4 offset 9);
compared against `IPPROTO_UDP` = 17. -/
def frame_ip_proto (fr : List Nat) : Nat := fr.getD 23 0 % 256

/-- The UDP length field of a raw frame: `udp_hdr->dgram_len`, big-endian
16-bit at offset 14 + 20 + 4 = 38. -/
def frame_udp_len (fr : List Nat) : Nat := be16 (fr.getD 38 0) (fr.getD 39 0)

/-- The UDP payload of a raw frame: the bytes after the 14 + 20 + 8 = 42
header bytes (`payload = (uint8_t *)(udp_hdr + 1)`). -/
def frame_payload (fr : List Nat) : List Nat := fr.drop 42

/-- One iteration of the per-packet loop body of `lcore_main`
(lines 156-194): a frame event is the raw frame bytes together with the
TSC values read by `rte_rdtsc()` at the start and (on the UDP branch) the
end of processing.  Both cycle counters are external inputs. -/
structure FrameEvent where
  raw : List Nat
  start_cycles : Nat
  end_cycles : Nat
deriving DecidableEq, Repr

/-- The `lcore_main` per-frame body: parse Ethernet, check IPv4, check UDP;
on the UDP branch compute `payload_len = be16(dgram_len) - sizeof(udp_hdr)`
(truncated to `uint16_t`), hand the payload to processing, and update the
statistics with `pkt_len` bytes and `end_cycles - start_cycles` latency;
in every case free the mbuf exactly once (`rte_pktmbuf_free`, line 193).
Returns the new statistics, the payload length passed to
`process_order_book_update` (`none` when the frame was dropped), and the
number of times the frame's buffer was released. -/
def lcore_handle_frame (ev : FrameEvent) (stats : RxStats) : RxStats × Option Nat × Nat :=
  if frame_ether_type ev.raw = 0x0800 then
    if frame_ip_proto ev.raw = 17 then
      let payload_len := sub16 (frame_udp_len ev.raw) 8
      let latency := sub64 ev.end_cycles ev.start_cycles
      (⟨add64 stats.packets 1,
        add64 stats.bytes ev.raw.length,
        stats.errors,
        add64 stats.total_latency_cycles latency⟩, some payload_len, 1)
    else (stats, none, 1)
  else (stats, none, 1)

/-- A burst: the zero-to-`BURST_SIZE` frames returned by one
`rte_eth_rx_burst` call.  An empty burst makes the loop `continue`. -/
def lcore_handle_burst (burst : List FrameEvent) (stats : RxStats) : RxStats :=
  burst.foldl (fun s ev => (lcore_handle_frame ev s).1) stats

/-- The `lcore_main` receive loop over a sequence of bursts, until the
`force_quit` flag is observed. -/
def lcore_run (bursts : List (List FrameEvent)) (stats : RxStats) : RxStats :=
  bursts.foldl (fun s b => lcore_handle_burst b s) stats

/-- Embedding of `print_stats` (lines 201-215): the average latency is guarded —
computed only when `stats.packets > 0`, and reported as 0 otherwise.
The products wrap in `uint64_t` before the (floating-point) division;
we model the guard and the integer operands. -/
def print_stats_avg (hz : Nat) (stats : RxStats) : Option Nat :=
  if stats.packets > 0 then
    u64div (wrap64 (stats.total_latency_cycles * 1000000000)) (wrap64 (hz * stats.packets))
  else some 0

/-- The errors counter value shown by `print_stats` (line 213). -/
def print_stats_errors (stats : RxStats) : Nat := stats.errors

/-- Outcome of the DPDK `main` initialisation phase (EAL init, port count
check, mbuf pool creation, `port_init`); each failure calls
`rte_exit(EXIT_FAILURE, ...)`. -/
inductive DpdkInit where
  | ok
  | ealFail
  | noPorts
  | poolFail
  | portFail
deriving DecidableEq, Repr

/-- The DPDK `main` (lines 220-276): any initialisation failure exits with
`EXIT_FAILURE` (1) before the loop; otherwise the loop runs to
cancellation, `print_stats` runs once, and `main` returns 0.
Returns the exit status and the final statistics when the loop ran. -/
def dpdk_main (init : DpdkInit) (bursts : List (List FrameEvent)) : Nat × Option RxStats :=
  match init with
  | .ok => (0, some (lcore_run bursts initRxStats))
  | _ => (1, none)

/-! ## The blocking-socket supervisor loop (`kernel_receiver.c`, `main`) -/

/-- One iteration's external input to the kernel receive loop: either the
`running` flag is observed cleared at the top of the loop, or `recvfrom`
returns `EINTR`, a fatal error, or a datagram with its receive timestamp
(`get_timestamp_ns()` taken right after `recvfrom` returns). -/
inductive KEvent where
  | cancel
  | eintr
  | fatal
  | pkt (data : List Nat) (recv_time : Nat)
deriving DecidableEq, Repr

/-- How the kernel receive loop ended: `running` observed false, or a
fatal `recvfrom` error (`break` at line 156). -/
inductive LoopExit where
  | cancelled
  | fatalError
deriving DecidableEq, Repr

/-- The report interval, `report_interval_ns = 5ULL * NSEC_PER_SEC` (line 145). -/
def report_interval_ns : Nat := 5 * 1000000000

/-- Mutable state of the kernel receive loop: the accumulator, the
last-report timestamp, and the list of periodic reports emitted so far,
each recorded as (elapsed time at emission, snapshot emitted). -/
structure RunState where
  stats : Stats
  last_report_time : Nat
  reports : List (Nat × Stats)
deriving DecidableEq, Repr

/-- The main receive loop of `kernel_receiver.c` (lines 148-178) over a
trace of external events.  `EINTR` makes the loop `continue` untouched;
any other `recvfrom` failure breaks out; a datagram is processed by
`process_order_book` and then, if `recv_time - last_report_time` (in
`uint64_t`) is at least the report interval, a snapshot of the
accumulator is emitted (without resetting it) and the last-report time
becomes `recv_time`.  An exhausted trace models a still-running loop. -/
def kernel_run (st : RunState) : List KEvent → RunState × Option LoopExit
  | [] => (st, none)
  | KEvent.cancel :: _ => (st, some LoopExit.cancelled)
  | KEvent.eintr :: rest => kernel_run st rest
  | KEvent.fatal :: _ => (st, some LoopExit.fatalError)
  | KEvent.pkt data t :: rest =>
    let s1 := process_order_book data t st.stats
    let elapsed := sub64 t st.last_report_time
    let st1 : RunState :=
      if elapsed ≥ report_interval_ns then
        ⟨s1, t, st.reports ++ [(elapsed, s1)]⟩
      else
        ⟨s1, st.last_report_time, st.reports⟩
    kernel_run st1 rest

/-- The average printed by the periodic report (line 166):
`stats.total_latency_ns / stats.packets_received` with no guard against a
zero packet count — a zero divisor is undefined behaviour (`none`). -/
def periodic_report_avg (stats : Stats) : Option Nat :=
  u64div stats.total_latency_ns stats.packets_received

/-- The average printed by the final-statistics block (lines 185-194):
computed and shown only when `stats.packets_received > 0`; when the count
is zero no average is reported at all. -/
def final_report_avg (stats : Stats) : Option Nat :=
  if stats.packets_received > 0 then u64div stats.total_latency_ns stats.packets_received
  else none

/-- Outcome of the kernel receiver's initialisation phase (`socket`,
`setsockopt SO_REUSEADDR`, `bind`, `IP_ADD_MEMBERSHIP`); each failure
path returns 1 from `main` before the loop starts. -/
inductive KInit where
  | ok
  | sockFail
  | reuseFail
  | bindFail
  | mreqFail
deriving DecidableEq, Repr

/-- Embedding of `main` of `kernel_receiver.c` (lines 76-200): any initialisation
failure returns 1; otherwise the receive loop runs from a fresh
accumulator, the final-statistics block runs exactly once after the loop,
and `main` returns 0 — regardless of whether the loop ended by
cancellation or by a fatal `recvfrom` error.  Returns the exit status,
how the loop ended, and the final state (accumulator, periodic reports). -/
def kernel_main (init : KInit) (t0 : Nat) (events : List KEvent) :
    Nat × Option LoopExit × Option RunState :=
  match init with
  | .ok =>
    let r := kernel_run ⟨initStats, t0, []⟩ events
    (0, r.2, some r.1)
  | _ => (1, none, none)

/-- The datagrams the loop actually processes from a trace: the
`(data, recv_time)` pairs before the first cancellation or fatal error. -/
def processed_pkts : List KEvent → List (List Nat × Nat)
  | [] => []
  | KEvent.cancel :: _ => []
  | KEvent.eintr :: rest => processed_pkts rest
  | KEvent.fatal :: _ => []
  | KEvent.pkt data t :: rest => (data, t) :: processed_pkts rest

/-- Folding `process_order_book` over a list of datagrams: the cumulative
accumulator contents after those datagrams. -/
def accum_pkts (pkts : List (List Nat × Nat)) (stats : Stats) : Stats :=
  pkts.foldl (fun s p => process_order_book p.1 p.2 s) stats

/-- Marks the loop inputs that are not transparent `EINTR` retries. -/
def isRealEvent : KEvent → Bool
  | KEvent.eintr => false
  | _ => true

/-! ## Concrete test inputs -/

/-- An all-zero message of `n` bytes (its embedded big-endian send
timestamp is 0, so the computed latency equals the receive timestamp). -/
def zmsg (n : Nat) : List Nat := List.replicate n 0

/-- Build a raw Ethernet → IPv4 → UDP frame around a given payload:
14 Ethernet bytes with EtherType `0x0800`, 20 IPv4 bytes with protocol 17,
8 UDP bytes whose length field is `payload length + 8` (big-endian). -/
def mkFrame (payload : List Nat) : List Nat :=
  List.replicate 12 0 ++ [0x08, 0x00] ++
  (List.replicate 9 0 ++ [17] ++ List.replicate 10 0) ++
  ([0, 0, 0, 0] ++ [(payload.length + 8) / 256 % 256, (payload.length + 8) % 256] ++ [0, 0]) ++
  payload

/-- A raw frame that is not IPv4 at all: 60 zero bytes (EtherType 0). -/
def nonIpFrame : List Nat := List.replicate 60 0

/-! ## Helper lemmas shared by several claims -/

/-- Unfolding of `process_order_book` on a message of valid length. -/
theorem process_order_book_valid (data : List Nat) (t : Nat) (s : Stats)
    (h : ¬ data.length < 32) :
    process_order_book data t s =
      ⟨add64 s.packets_received 1,
       add64 s.bytes_received data.length,
       add64 s.total_latency_ns (sub64 t (extractSendTime data)),
       if add64 s.packets_received 1 = 1 ∨ sub64 t (extractSendTime data) < s.min_latency_ns
         then sub64 t (extractSendTime data) else s.min_latency_ns,
       if sub64 t (extractSendTime data) > s.max_latency_ns
         then sub64 t (extractSendTime data) else s.max_latency_ns⟩ := by
  simp [process_order_book, h]

/-- Unfolding of `process_order_book` on a short message: no effect. -/
theorem process_order_book_short (data : List Nat) (t : Nat) (s : Stats)
    (h : data.length < 32) :
    process_order_book data t s = s := by
  simp [process_order_book, h]

/-- Unfolding of `lcore_handle_frame` on a frame that decodes as
Ethernet → IPv4 → UDP. -/
theorem lcore_handle_frame_udp (ev : FrameEvent) (s : RxStats)
    (h1 : frame_ether_type ev.raw = 0x0800) (h2 : frame_ip_proto ev.raw = 17) :
    lcore_handle_frame ev s =
      (⟨add64 s.packets 1,
        add64 s.bytes ev.raw.length,
        s.errors,
        add64 s.total_latency_cycles (sub64 ev.end_cycles ev.start_cycles)⟩,
       some (sub16 (frame_udp_len ev.raw) 8), 1) := by
  simp [lcore_handle_frame, h1, h2]

/-- Unfolding of `lcore_handle_frame` on a frame that does not decode as
Ethernet → IPv4 → UDP: the statistics are untouched, the buffer is still
released once, and no payload reaches the processing stage. -/
theorem lcore_handle_frame_drop (ev : FrameEvent) (s : RxStats)
    (h : ¬ (frame_ether_type ev.raw = 0x0800 ∧ frame_ip_proto ev.raw = 17)) :
    lcore_handle_frame ev s = (s, none, 1) := by
  unfold lcore_handle_frame
  by_cases h1 : frame_ether_type ev.raw = 0x0800
  · by_cases h2 : frame_ip_proto ev.raw = 17
    · exact absurd ⟨h1, h2⟩ h
    · simp [h1, h2]
  · simp [h1]

/-! ## C1 — latency computation -/

/-- C1 counterexample: on the polled-burst path the claim fails.  For a
valid Ethernet → IPv4 → UDP frame with a 32-byte payload whose embedded
big-endian timestamp is 0, processed with `rte_rdtsc()` readings 100 and
105, the latency accumulated by `lcore_main` is the cycle delta 5 — not
`receive_timestamp − send_timestamp`, which would be 100 (or 105),
whichever of the two TSC readings is taken as the receive timestamp.
The burst path never reads the payload bytes at all. -/
theorem C1_counterexample :
    (lcore_handle_frame ⟨mkFrame (zmsg 32), 100, 105⟩ initRxStats).1.total_latency_cycles = 5 ∧
    32 ≤ (frame_payload (mkFrame (zmsg 32))).length ∧
    sub64 100 (extractSendTime (frame_payload (mkFrame (zmsg 32)))) = 100 ∧
    sub64 105 (extractSendTime (frame_payload (mkFrame (zmsg 32)))) = 105 ∧
    (5 : Nat) ≠ 100 ∧ (5 : Nat) ≠ 105 := by
  decide

/-- C1 amended: on the kernel-mediated path, for every message of at
least 32 bytes the latency folded into the accumulator is exactly
`receive_timestamp_ns − BE64(payload bytes 0..8)` in wrapping unsigned
64-bit arithmetic (and the computation is a pure function of its inputs,
hence deterministic); on the polled-burst path the accumulated latency is
instead the TSC cycle delta `end_cycles − start_cycles` around
processing, also wrapping modulo `2^64`, with no payload timestamp
involved. -/
theorem C1_amended :
    (∀ (data : List Nat) (t : Nat) (s : Stats), 32 ≤ data.length →
      (process_order_book data t s).total_latency_ns =
        add64 s.total_latency_ns (sub64 t (extractSendTime data))) ∧
    (∀ (ev : FrameEvent) (s : RxStats),
      frame_ether_type ev.raw = 0x0800 → frame_ip_proto ev.raw = 17 →
      (lcore_handle_frame ev s).1.total_latency_cycles =
        add64 s.total_latency_cycles (sub64 ev.end_cycles ev.start_cycles)) := by
  constructor
  · intro data t s hlen
    rw [process_order_book_valid data t s (by omega)]
  · intro ev s h1 h2
    rw [lcore_handle_frame_udp ev s h1 h2]

/-- C1 witness: the amended theorem applied at concrete inputs — a
40-byte all-zero message received at time 7 on the kernel path, and a
UDP frame with TSC readings 100 and 105 on the burst path. -/
theorem C1_witness :
    (process_order_book (zmsg 40) 7 initStats).total_latency_ns = 7 ∧
    (lcore_handle_frame ⟨mkFrame (zmsg 32), 100, 105⟩ initRxStats).1.total_latency_cycles = 5 := by
  constructor
  · rw [C1_amended.1 (zmsg 40) 7 initStats (by decide)]; decide
  · rw [C1_amended.2 ⟨mkFrame (zmsg 32), 100, 105⟩ initRxStats (by decide) (by decide)]; decide

/-! ## C2 — division-by-zero guard in the reports -/

/-- C2: the claim states that no report ever divides by zero and that a
zero count reports an average of 0.  The kernel receiver's periodic
report violates this: a single 16-byte datagram arriving at
`recv_time = report_interval_ns` (with `last_report_time = 0`) leaves the
accumulator untouched (`packets_received = 0`) yet triggers the periodic
report, whose average `total_latency_ns / packets_received` is then a
division by zero — undefined behaviour, modelled as `none`.  The final
report (guarded by `packets_received > 0`) and the burst path's
`print_stats` (guarded likewise) are not affected. -/
theorem C2_periodic_division_by_zero :
    (kernel_run ⟨initStats, 0, []⟩ [KEvent.pkt (zmsg 16) report_interval_ns]).1.reports
      = [(report_interval_ns, initStats)] ∧
    initStats.packets_received = 0 ∧
    periodic_report_avg initStats = none ∧
    final_report_avg initStats = none ∧
    print_stats_avg 1000000000 initRxStats = some 0 := by
  decide

/-! ## C3 — accumulator update semantics -/

/-- C3: the accumulate operation increments the packet count by 1, adds
the length to the byte total and the latency to the latency sum; the
very first sample seeds both min and max; a subsequent sample updates min
exactly when the new latency is strictly lower and max exactly when it is
strictly higher (ties update neither); and feeding latencies
[50, 10, 90] with length 40 each into a fresh accumulator yields
count 3, bytes 120, min 10, max 90 and average 50.  The subsequent-sample
part assumes the packet count does not wrap (`count + 1 < 2^64`). -/
theorem C3_accumulate :
    (∀ (s : Stats) (data : List Nat) (t : Nat),
      32 ≤ data.length → 1 ≤ s.packets_received → s.packets_received + 1 < U64 →
      (process_order_book data t s).packets_received = s.packets_received + 1 ∧
      (process_order_book data t s).bytes_received = add64 s.bytes_received data.length ∧
      (process_order_book data t s).total_latency_ns =
        add64 s.total_latency_ns (sub64 t (extractSendTime data)) ∧
      (process_order_book data t s).min_latency_ns =
        (if sub64 t (extractSendTime data) < s.min_latency_ns
          then sub64 t (extractSendTime data) else s.min_latency_ns) ∧
      (process_order_book data t s).max_latency_ns =
        (if s.max_latency_ns < sub64 t (extractSendTime data)
          then sub64 t (extractSendTime data) else s.max_latency_ns)) ∧
    (∀ (data : List Nat) (t : Nat), 32 ≤ data.length →
      (process_order_book data t initStats).packets_received = 1 ∧
      (process_order_book data t initStats).min_latency_ns = sub64 t (extractSendTime data) ∧
      (process_order_book data t initStats).max_latency_ns = sub64 t (extractSendTime data)) ∧
    accum_pkts [(zmsg 40, 50), (zmsg 40, 10), (zmsg 40, 90)] initStats
      = ⟨3, 120, 150, 10, 90⟩ ∧
    final_report_avg ⟨3, 120, 150, 10, 90⟩ = some 50 := by
  refine ⟨?_, ?_, by decide, by decide⟩
  · intro s data t hlen hcnt hnw
    have hpk : add64 s.packets_received 1 = s.packets_received + 1 := Nat.mod_eq_of_lt hnw
    have hne : ¬ (s.packets_received + 1 = 1) := by omega
    rw [process_order_book_valid data t s (by omega)]
    refine ⟨hpk, rfl, rfl, ?_, ?_⟩
    · rw [hpk]
      simp [hne]
    · rfl
  · intro data t hlen
    rw [process_order_book_valid data t initStats (by omega)]
    have hone : add64 (0 : Nat) 1 = 1 := by decide
    dsimp only [initStats]
    rw [hone]
    refine ⟨rfl, by simp, ?_⟩
    by_cases hL : sub64 t (extractSendTime data) > 0
    · rw [if_pos hL]
    · rw [if_neg hL]
      omega

/-- C3 witness: the first conjunct applied to the accumulator state after
one sample (count 1, min = max = 50) and a second 40-byte message with
latency 10: count becomes 2, min drops to 10, max stays 50. -/
theorem C3_witness :
    (process_order_book (zmsg 40) 10 ⟨1, 40, 50, 50, 50⟩).packets_received = 2 ∧
    (process_order_book (zmsg 40) 10 ⟨1, 40, 50, 50, 50⟩).min_latency_ns = 10 ∧
    (process_order_book (zmsg 40) 10 ⟨1, 40, 50, 50, 50⟩).max_latency_ns = 50 := by
  have h := C3_accumulate.1 ⟨1, 40, 50, 50, 50⟩ (zmsg 40) 10 (by decide) (by decide) (by decide)
  refine ⟨h.1, ?_, ?_⟩
  · rw [h.2.2.2.1]; decide
  · rw [h.2.2.2.2]; decide

/-! ## C4 — short messages -/

/-- C4 counterexample: the claim fails on the polled-burst path, which
performs no minimum-length validation.  A valid Ethernet → IPv4 → UDP
frame whose payload is only 16 bytes (< 32) is handed to processing with
payload length 16 and updates the statistics (packet count goes from 0
to 1), instead of being discarded with no effect. -/
theorem C4_counterexample :
    (lcore_handle_frame ⟨mkFrame (zmsg 16), 3, 9⟩ initRxStats).1.packets = 1 ∧
    (lcore_handle_frame ⟨mkFrame (zmsg 16), 3, 9⟩ initRxStats).2.1 = some 16 ∧
    (16 : Nat) < 32 ∧
    initRxStats.packets = 0 := by
  decide

/-- C4 amended: on the kernel-mediated path every message shorter than
32 bytes is silently discarded, leaving every field of the statistics
unchanged; the polled-burst path applies no minimum-length check and
accumulates every frame that decodes as Ethernet → IPv4 → UDP regardless
of its payload length. -/
theorem C4_amended :
    (∀ (data : List Nat) (t : Nat) (s : Stats), data.length < 32 →
      process_order_book data t s = s) ∧
    (∀ (ev : FrameEvent) (s : RxStats),
      frame_ether_type ev.raw = 0x0800 → frame_ip_proto ev.raw = 17 →
      (lcore_handle_frame ev s).1.packets = add64 s.packets 1) := by
  constructor
  · intro data t s h
    exact process_order_book_short data t s h
  · intro ev s h1 h2
    rw [lcore_handle_frame_udp ev s h1 h2]

/-- C4 witness: the amended theorem applied at concrete inputs — a
16-byte message leaves a non-trivial accumulator untouched, and a
short-payload UDP frame is still counted on the burst path. -/
theorem C4_witness :
    process_order_book (zmsg 16) 99 ⟨2, 80, 60, 10, 50⟩ = ⟨2, 80, 60, 10, 50⟩ ∧
    (lcore_handle_frame ⟨mkFrame (zmsg 16), 3, 9⟩ initRxStats).1.packets = 1 := by
  constructor
  · exact C4_amended.1 (zmsg 16) 99 ⟨2, 80, 60, 10, 50⟩ (by decide)
  · rw [C4_amended.2 ⟨mkFrame (zmsg 16), 3, 9⟩ initRxStats (by decide) (by decide)]
    decide

/-! ## C5 — exit status -/

/-- C5 counterexample: a fatal source error while running does not give
a non-zero exit status on the blocking path.  With successful
initialisation and a trace consisting of one fatal `recvfrom` failure,
the loop ends with `LoopExit.fatalError` yet `main` returns 0. -/
theorem C5_counterexample :
    kernel_main KInit.ok 0 [KEvent.fatal]
      = (0, some LoopExit.fatalError, some ⟨initStats, 0, []⟩) := by
  decide

/-- C5 amended: on both paths the exit status is 0 exactly when resource
initialisation succeeded: normal cancellation-driven shutdown exits 0 and
every initialisation failure exits non-zero, but a fatal source error
while running (blocking path) also exits 0 — the error is only reported
to stderr. -/
theorem C5_amended :
    (∀ (init : KInit) (t0 : Nat) (events : List KEvent),
      (kernel_main init t0 events).1 = 0 ↔ init = KInit.ok) ∧
    (∀ (init : DpdkInit) (bursts : List (List FrameEvent)),
      (dpdk_main init bursts).1 = 0 ↔ init = DpdkInit.ok) := by
  constructor
  · intro init t0 events
    cases init <;> simp [kernel_main]
  · intro init bursts
    cases init <;> simp [dpdk_main]

/-! ## C6 — periodic and final reporting -/

/-- Folding one more datagram into the cumulative totals. -/
theorem accum_pkts_cons (d : List Nat) (t : Nat) (ps : List (List Nat × Nat)) (s : Stats) :
    accum_pkts ((d, t) :: ps) s = accum_pkts ps (process_order_book d t s) := rfl

/-- The accumulator at loop exit is the fold of `process_order_book` over
the processed datagrams: report emission never modifies or resets it. -/
theorem kernel_run_stats_eq (events : List KEvent) :
    ∀ st : RunState,
      (kernel_run st events).1.stats = accum_pkts (processed_pkts events) st.stats := by
  induction events with
  | nil => intro st; rfl
  | cons e rest ih =>
    intro st
    cases e with
    | cancel => rfl
    | eintr => exact ih st
    | fatal => rfl
    | pkt data t =>
      show (kernel_run _ (KEvent.pkt data t :: rest)).1.stats = _
      simp only [kernel_run, processed_pkts, accum_pkts_cons]
      split
      · exact ih _
      · exact ih _

/-- Every report the loop emits is appended to the report list, is gated
by the report interval, and snapshots the cumulative totals over a front
segment of the processed datagrams (never a delta, never a reset). -/
theorem kernel_run_reports_spec (events : List KEvent) :
    ∀ st : RunState, ∃ ems,
      (kernel_run st events).1.reports = st.reports ++ ems ∧
      ∀ p ∈ ems, report_interval_ns ≤ p.1 ∧
        ∃ front rest2, processed_pkts events = front ++ rest2 ∧
          p.2 = accum_pkts front st.stats := by
  induction events with
  | nil => intro st; exact ⟨[], by simp [kernel_run], by simp⟩
  | cons e rest ih =>
    intro st
    cases e with
    | cancel => exact ⟨[], by simp [kernel_run], by simp⟩
    | fatal => exact ⟨[], by simp [kernel_run], by simp⟩
    | eintr =>
      obtain ⟨ems, h1, h2⟩ := ih st
      exact ⟨ems, h1, h2⟩
    | pkt data t =>
      by_cases hrep : report_interval_ns ≤ sub64 t st.last_report_time
      · obtain ⟨ems, h1, h2⟩ :=
          ih ⟨process_order_book data t st.stats, t,
              st.reports ++ [(sub64 t st.last_report_time, process_order_book data t st.stats)]⟩
        refine ⟨(sub64 t st.last_report_time, process_order_book data t st.stats) :: ems, ?_, ?_⟩
        · show (kernel_run _ (KEvent.pkt data t :: rest)).1.reports = _
          simp only [kernel_run]
          rw [if_pos hrep]
          rw [h1]
          simp
        · intro p hp
          rcases List.mem_cons.mp hp with hp | hp
          · subst hp
            exact ⟨hrep, [(data, t)], processed_pkts rest, rfl, rfl⟩
          · obtain ⟨hint, front, rest2, hsplit, hval⟩ := h2 p hp
            refine ⟨hint, (data, t) :: front, rest2, ?_, ?_⟩
            · show (data, t) :: processed_pkts rest = _
              rw [hsplit]
              rfl
            · rw [hval, accum_pkts_cons]
      · obtain ⟨ems, h1, h2⟩ :=
          ih ⟨process_order_book data t st.stats, st.last_report_time, st.reports⟩
        refine ⟨ems, ?_, ?_⟩
        · show (kernel_run _ (KEvent.pkt data t :: rest)).1.reports = _
          simp only [kernel_run]
          rw [if_neg hrep]
          exact h1
        · intro p hp
          obtain ⟨hint, front, rest2, hsplit, hval⟩ := h2 p hp
          refine ⟨hint, (data, t) :: front, rest2, ?_, ?_⟩
          · show (data, t) :: processed_pkts rest = _
            rw [hsplit]
            rfl
          · rw [hval, accum_pkts_cons]

/-- C6: starting from a fresh accumulator, (1) the accumulator at loop
exit — which the final-statistics block, run exactly once after the loop,
prints — equals the cumulative totals over all processed datagrams since
start; (2) `main` exposes exactly that state to the final report
regardless of how the loop ended; (3) every periodic report was emitted
only when the elapsed time since the last emission reached the 5-second
interval, and its snapshot equals the cumulative totals over a front
segment of the processed datagrams — cumulative since start, never a
delta, and emission does not reset the accumulator. -/
theorem C6_reporting :
    ∀ (events : List KEvent) (t0 : Nat),
      (kernel_run ⟨initStats, t0, []⟩ events).1.stats
        = accum_pkts (processed_pkts events) initStats ∧
      (kernel_main KInit.ok t0 events).2.2 = some (kernel_run ⟨initStats, t0, []⟩ events).1 ∧
      ∀ p ∈ (kernel_run ⟨initStats, t0, []⟩ events).1.reports,
        report_interval_ns ≤ p.1 ∧
        ∃ front rest2, processed_pkts events = front ++ rest2 ∧
          p.2 = accum_pkts front initStats := by
  intro events t0
  refine ⟨kernel_run_stats_eq events ⟨initStats, t0, []⟩, rfl, ?_⟩
  obtain ⟨ems, h1, h2⟩ := kernel_run_reports_spec events ⟨initStats, t0, []⟩
  intro p hp
  rw [h1] at hp
  exact h2 p (by simpa using hp)

/-- C6 witness: on the trace consisting of one valid 40-byte datagram at
time 5000000000 (with `last_report_time` starting at 0), the single
periodic report is gated by the interval and snapshots the cumulative
totals of the one processed datagram. -/
theorem C6_witness :
    report_interval_ns ≤ 5000000000 ∧
    ∃ front rest2,
      processed_pkts [KEvent.pkt (zmsg 40) 5000000000] = front ++ rest2 ∧
      (⟨1, 40, 5000000000, 5000000000, 5000000000⟩ : Stats) = accum_pkts front initStats :=
  (C6_reporting [KEvent.pkt (zmsg 40) 5000000000] 0).2.2
    (5000000000, ⟨1, 40, 5000000000, 5000000000, 5000000000⟩) (by decide)

/-! ## C7 — non-target traffic on the burst path -/

/-- C7: every frame of a burst is released exactly once; a frame whose
EtherType is not IPv4 or whose IPv4 protocol is not UDP leaves the whole
statistics structure unchanged (the burst path's `rx_stats` carries
packets, bytes, errors and latency sum; it has no min/max fields, so
unchanged-ness of the whole structure covers every field) and yields no
payload; a frame that decodes as Ethernet → IPv4 → UDP yields a payload
whose length is the UDP header's length field minus the 8-byte UDP
header size, in 16-bit arithmetic. -/
theorem C7_nontarget_immunity :
    ∀ (ev : FrameEvent) (s : RxStats),
      (lcore_handle_frame ev s).2.2 = 1 ∧
      (¬ (frame_ether_type ev.raw = 0x0800 ∧ frame_ip_proto ev.raw = 17) →
        lcore_handle_frame ev s = (s, none, 1)) ∧
      ((frame_ether_type ev.raw = 0x0800 ∧ frame_ip_proto ev.raw = 17) →
        (lcore_handle_frame ev s).2.1 = some (sub16 (frame_udp_len ev.raw) 8)) := by
  intro ev s
  refine ⟨?_, ?_, ?_⟩
  · by_cases h : frame_ether_type ev.raw = 0x0800 ∧ frame_ip_proto ev.raw = 17
    · rw [lcore_handle_frame_udp ev s h.1 h.2]
    · rw [lcore_handle_frame_drop ev s h]
  · intro h
    exact lcore_handle_frame_drop ev s h
  · intro h
    rw [lcore_handle_frame_udp ev s h.1 h.2]

/-- C7 witness: a 60-byte all-zero frame (EtherType 0) leaves a
non-trivial statistics state untouched and is released once, while a
well-formed UDP frame with a 32-byte payload yields payload length 32. -/
theorem C7_witness :
    lcore_handle_frame ⟨nonIpFrame, 4, 9⟩ ⟨5, 100, 0, 7⟩ = (⟨5, 100, 0, 7⟩, none, 1) ∧
    (lcore_handle_frame ⟨mkFrame (zmsg 32), 4, 9⟩ initRxStats).2.1 = some 32 := by
  constructor
  · exact (C7_nontarget_immunity ⟨nonIpFrame, 4, 9⟩ ⟨5, 100, 0, 7⟩).2.1 (by decide)
  · rw [(C7_nontarget_immunity ⟨mkFrame (zmsg 32), 4, 9⟩ initRxStats).2.2 (by decide)]
    decide

/-! ## C8 — EINTR transparency on the blocking path -/

/-- Removing the transparent `EINTR` iterations from a trace does not
change the loop's behaviour at all. -/
theorem kernel_run_filter_eintr (events : List KEvent) :
    ∀ st : RunState,
      kernel_run st events = kernel_run st (events.filter isRealEvent) := by
  induction events with
  | nil => intro st; rfl
  | cons e rest ih =>
    intro st
    cases e with
    | cancel => rfl
    | eintr => exact ih st
    | fatal => rfl
    | pkt data t =>
      show kernel_run st (KEvent.pkt data t :: rest)
          = kernel_run st (KEvent.pkt data t :: rest.filter isRealEvent)
      simp only [kernel_run]
      split
      · exact ih _
      · exact ih _

/-- C8: an interrupted wait (`EINTR`) makes the loop continue with the
state — statistics included — completely unchanged, and is never
surfaced (a whole trace behaves exactly like the trace with all `EINTR`
iterations removed); any other acquisition failure ends the Running
phase immediately with a fatal exit, without touching the state. -/
theorem C8_eintr_transparent :
    (∀ (st : RunState) (rest : List KEvent),
      kernel_run st (KEvent.eintr :: rest) = kernel_run st rest ∧
      kernel_run st (KEvent.fatal :: rest) = (st, some LoopExit.fatalError)) ∧
    (∀ (st : RunState) (events : List KEvent),
      kernel_run st events = kernel_run st (events.filter isRealEvent)) := by
  refine ⟨fun st rest => ⟨rfl, rfl⟩, fun st events => kernel_run_filter_eintr events st⟩

/-! ## C9 — monotonicity of the statistics -/

/-- C9 counterexample: the latency sum is a wrapping `uint64_t` and is
not non-decreasing.  Two valid 40-byte datagrams whose embedded send
timestamp is 0, both received at time `2^63`, each contribute latency
`2^63`; the second processing step wraps the latency sum from `2^63`
down to 0. -/
theorem C9_counterexample :
    (process_order_book (zmsg 40) (2 ^ 63)
        (process_order_book (zmsg 40) (2 ^ 63) initStats)).total_latency_ns
      < (process_order_book (zmsg 40) (2 ^ 63) initStats).total_latency_ns := by
  decide

/-- C9 amended: every processing step keeps the statistics monotone —
packet count, byte total, latency sum and max non-decreasing, min
non-increasing once count ≥ 1 — provided the wrapping 64-bit additions
do not overflow; with overflow (reachable, since wrapped latencies close
to `2^64` arise under clock skew) the sums can decrease. -/
theorem C9_amended :
    ∀ (s : Stats) (data : List Nat) (t : Nat),
      s.packets_received + 1 < U64 →
      s.bytes_received + data.length < U64 →
      s.total_latency_ns + sub64 t (extractSendTime data) < U64 →
      s.packets_received ≤ (process_order_book data t s).packets_received ∧
      s.bytes_received ≤ (process_order_book data t s).bytes_received ∧
      s.total_latency_ns ≤ (process_order_book data t s).total_latency_ns ∧
      s.max_latency_ns ≤ (process_order_book data t s).max_latency_ns ∧
      (1 ≤ s.packets_received →
        (process_order_book data t s).min_latency_ns ≤ s.min_latency_ns) := by
  intro s data t hp hb ht
  by_cases hlen : data.length < 32
  · rw [process_order_book_short data t s hlen]
    exact ⟨le_refl _, le_refl _, le_refl _, le_refl _, fun _ => le_refl _⟩
  · rw [process_order_book_valid data t s hlen]
    dsimp only
    have hp' : add64 s.packets_received 1 = s.packets_received + 1 := Nat.mod_eq_of_lt hp
    have hb' : add64 s.bytes_received data.length = s.bytes_received + data.length :=
      Nat.mod_eq_of_lt hb
    have ht' : add64 s.total_latency_ns (sub64 t (extractSendTime data))
        = s.total_latency_ns + sub64 t (extractSendTime data) := Nat.mod_eq_of_lt ht
    refine ⟨by rw [hp']; omega, by rw [hb']; omega, by rw [ht']; omega, ?_, ?_⟩
    · by_cases hmax : sub64 t (extractSendTime data) > s.max_latency_ns
      · rw [if_pos hmax]
        omega
      · rw [if_neg hmax]
    · intro hcnt
      have hne : ¬ (add64 s.packets_received 1 = 1) := by
        rw [hp']
        omega
      by_cases hmin : sub64 t (extractSendTime data) < s.min_latency_ns
      · rw [if_pos (Or.inr hmin)]
        omega
      · have : ¬ (add64 s.packets_received 1 = 1 ∨
            sub64 t (extractSendTime data) < s.min_latency_ns) := by
          intro h
          rcases h with h | h
          · exact hne h
          · exact hmin h
        rw [if_neg this]

/-- C9 witness: the amended monotonicity applied to the state after one
sample (count 1, min = max = 50) and a 40-byte message with latency 10. -/
theorem C9_witness :
    (1 : Nat) ≤ (process_order_book (zmsg 40) 10 ⟨1, 40, 50, 50, 50⟩).packets_received ∧
    (40 : Nat) ≤ (process_order_book (zmsg 40) 10 ⟨1, 40, 50, 50, 50⟩).bytes_received ∧
    (50 : Nat) ≤ (process_order_book (zmsg 40) 10 ⟨1, 40, 50, 50, 50⟩).total_latency_ns ∧
    (50 : Nat) ≤ (process_order_book (zmsg 40) 10 ⟨1, 40, 50, 50, 50⟩).max_latency_ns ∧
    (process_order_book (zmsg 40) 10 ⟨1, 40, 50, 50, 50⟩).min_latency_ns ≤ 50 := by
  have h := C9_amended ⟨1, 40, 50, 50, 50⟩ (zmsg 40) 10 (by decide) (by decide) (by decide)
  exact ⟨h.1, h.2.1, h.2.2.1, h.2.2.2.1, h.2.2.2.2 (by decide)⟩

/-! ## C10 — the errors counter of the burst path -/

/-- Handling one frame never touches the errors counter. -/
theorem lcore_handle_frame_errors (ev : FrameEvent) (s : RxStats) :
    ((lcore_handle_frame ev s).1).errors = s.errors := by
  by_cases h : frame_ether_type ev.raw = 0x0800 ∧ frame_ip_proto ev.raw = 17
  · rw [lcore_handle_frame_udp ev s h.1 h.2]
  · rw [lcore_handle_frame_drop ev s h]

/-- Handling one burst never touches the errors counter. -/
theorem lcore_handle_burst_errors (burst : List FrameEvent) :
    ∀ s : RxStats, (lcore_handle_burst burst s).errors = s.errors := by
  induction burst with
  | nil => intro s; rfl
  | cons ev rest ih =>
    intro s
    have h : lcore_handle_burst (ev :: rest) s
        = lcore_handle_burst rest (lcore_handle_frame ev s).1 := rfl
    rw [h, ih, lcore_handle_frame_errors]

/-- C10: no operation of the polled-burst receiver ever increments the
errors counter: any run over any sequence of bursts preserves it, so
from the zero-initialised `rx_stats` every reachable state has
`errors = 0` and `print_stats` always shows `Errors: 0`. -/
theorem C10_errors_always_zero :
    (∀ (bursts : List (List FrameEvent)) (s : RxStats),
      (lcore_run bursts s).errors = s.errors) ∧
    (∀ bursts : List (List FrameEvent),
      print_stats_errors (lcore_run bursts initRxStats) = 0) := by
  have hrun : ∀ (bursts : List (List FrameEvent)) (s : RxStats),
      (lcore_run bursts s).errors = s.errors := by
    intro bursts
    induction bursts with
    | nil => intro s; rfl
    | cons b rest ih =>
      intro s
      have h : lcore_run (b :: rest) s = lcore_run rest (lcore_handle_burst b s) := rfl
      rw [h, ih, lcore_handle_burst_errors]
  exact ⟨hrun, fun bursts => hrun bursts initRxStats⟩

end Spec2Proof
